import Mathlib

/-!
Shallow embedding of the iterator-protocol examples of this repository
(notebooks part-1 and part-3) and proofs of the specified properties.

Python exceptions are modelled as values of `PyErr`; a method that can
raise returns an `Except PyErr _` result paired with the (possibly
mutated) object, making the state change of each call explicit.
-/

/-- The two error kinds the examples raise: `StopIteration` from
`__next__` (the spec's `Exhausted`) and `IndexError` from list indexing
(the spec's `OutOfRange`). -/
inductive PyErr where
  | StopIteration
  | IndexError
deriving DecidableEq, Repr

namespace Part1

/-- The unbounded `Squares` class of part-1 (the variant with `next_`
and no length): `self.i` starts at 0; `next_` returns `self.i ** 2`
and increments `self.i`. -/
structure SquaresUnbounded where
  i : Nat
deriving DecidableEq, Repr

/-- Python `Squares.__init__` of the unbounded variant: `self.i = 0`. -/
def SquaresUnbounded.init : SquaresUnbounded := ⟨0⟩

/-- Python `Squares.next_`: `result = self.i ** 2; self.i += 1; return result`. -/
def SquaresUnbounded.next_ (self : SquaresUnbounded) : Nat × SquaresUnbounded :=
  (self.i ^ 2, ⟨self.i + 1⟩)

/-- The results of `k` successive `next_` calls, in order. -/
def SquaresUnbounded.run : Nat → SquaresUnbounded → List Nat
  | 0, _ => []
  | k + 1, s =>
    let p := s.next_
    p.1 :: SquaresUnbounded.run k p.2

/-- The bounded `Squares` class of part-1, with `__len__`, `__next__`
and (in the final variant) `__iter__`. -/
structure Squares where
  length : Nat
  i : Nat
deriving DecidableEq, Repr

/-- Python `Squares.__init__(self, length)`: stores the length, `self.i = 0`. -/
def Squares.init (length : Nat) : Squares := ⟨length, 0⟩

/-- Python `Squares.__len__`: `return self.length`. -/
def Squares.len (self : Squares) : Nat := self.length

/-- Python `Squares.__next__`: raises `StopIteration` if `self.i >= self.length`,
else returns `self.i ** 2` and increments `self.i`. A raise leaves the
object unchanged. -/
def Squares.next (self : Squares) : Except PyErr Nat × Squares :=
  if self.i ≥ self.length then
    (Except.error PyErr.StopIteration, self)
  else
    (Except.ok (self.i ^ 2), ⟨self.length, self.i + 1⟩)

/-- Python `Squares.__iter__`: `return self`. -/
def Squares.iter (self : Squares) : Squares := self

end Part1

namespace Part3

/-- The `Cities` class of part-3: `self._cities` is the backing list. -/
structure Cities where
  _cities : List String
deriving DecidableEq, Repr

/-- Python `Cities.__init__` as written in part-3. -/
def Cities.init : Cities :=
  ⟨["New York", "Newark", "New Delhi", "Newcastle"]⟩

/-- Python `Cities.__len__`: `return len(self._cities)`. -/
def Cities.len (self : Cities) : Nat := self._cities.length

/-- The `CityIterator` class of part-3: holds a reference to the
`Cities` object and a cursor `self._index`. -/
structure CityIterator where
  _city_obj : Cities
  _index : Nat
deriving DecidableEq, Repr

/-- Python `CityIterator.__init__(self, city_obj)`: stores the container,
`self._index = 0`. -/
def CityIterator.init (city_obj : Cities) : CityIterator := ⟨city_obj, 0⟩

/-- Python `CityIterator.__iter__`: `return self`. -/
def CityIterator.iter (self : CityIterator) : CityIterator := self

/-- Python `CityIterator.__next__`: raises `StopIteration` if
`self._index >= len(self._city_obj)`, else returns
`self._city_obj._cities[self._index]` and increments `self._index`.
A raise leaves the iterator unchanged. -/
def CityIterator.next (self : CityIterator) : Except PyErr String × CityIterator :=
  if h : self._index ≥ self._city_obj.len then
    (Except.error PyErr.StopIteration, self)
  else
    (Except.ok (self._city_obj._cities.get ⟨self._index, Nat.lt_of_not_le h⟩),
     ⟨self._city_obj, self._index + 1⟩)

/-- Python `Cities.__iter__`: `return CityIterator(self)` — a brand-new
iterator over this container. -/
def Cities.iter (self : Cities) : CityIterator := CityIterator.init self

/-- Python `Cities.__getitem__(self, s)`: `return self._cities[s]`, with
Python list-index semantics for an integer index: a negative index
counts from the end, and an index outside `[-len, len)` raises
`IndexError`. -/
def Cities.getitem (self : Cities) (s : Int) : Except PyErr String :=
  let i : Int := if s < 0 then (self._cities.length : Int) + s else s
  if h : 0 ≤ i ∧ i < (self._cities.length : Int) then
    Except.ok (self._cities.get ⟨i.toNat, by omega⟩)
  else
    Except.error PyErr.IndexError

/-- The results of exactly `k` successive `__next__` calls, each one an
`Except` outcome, together with the final iterator state. -/
def CityIterator.nextN : Nat → CityIterator → List (Except PyErr String) × CityIterator
  | 0, it => ([], it)
  | k + 1, it =>
    let p := it.next
    let q := CityIterator.nextN k p.2
    (p.1 :: q.1, q.2)

/-! ### A heap model for aliasing

Python objects are heap references: two `CityIterator`s obtained from
the same `Cities` instance are distinct mutable objects sharing the
container. `World` makes this explicit: it holds the one container and
the cursors of every iterator allocated so far, addressed by allocation
index. Each operation below is the corresponding method of the source,
acting on the heap. -/
structure World where
  cities : Cities
  iters : List Nat
deriving DecidableEq, Repr

/-- Python `Cities.__iter__` on the heap: allocates a brand-new `CityIterator`
with cursor 0 and returns its address. -/
def World.asProducer (w : World) : Nat × World :=
  (w.iters.length, ⟨w.cities, w.iters ++ [0]⟩)

/-- Python `CityIterator.__next__` on the heap, for the iterator at address
`id`: reads that iterator's cursor, raises `StopIteration` when the
cursor has reached `len(self._city_obj)`, otherwise returns the element
at the cursor and increments only that iterator's cursor. (An address
never handed out by `asProducer` dereferences to nothing and is mapped
to the raising branch; the claims only use allocated addresses.) -/
def World.advance (w : World) (id : Nat) : Except PyErr String × World :=
  match w.iters.get? id with
  | none => (Except.error PyErr.StopIteration, w)
  | some ix =>
    if h : ix ≥ w.cities.len then
      (Except.error PyErr.StopIteration, w)
    else
      (Except.ok (w.cities._cities.get ⟨ix, Nat.lt_of_not_le h⟩),
       ⟨w.cities, w.iters.set id (ix + 1)⟩)

/-- Heap version of `k` successive `__next__` calls on the iterator at address `id`,
keeping only the final heap. -/
def World.advanceN : Nat → Nat → World → World
  | 0, _, w => w
  | k + 1, id, w => World.advanceN k id (w.advance id).2

/-- The `for` loop body over the iterator at address `id`: call
`__next__` until `StopIteration`, collecting the produced values.
`fuel` bounds the recursion; every run below uses `len + 1` fuel,
which `collectFrom_fuel_irrel` shows is always enough for the loop to
reach `StopIteration` on its own. -/
def World.collectFrom : Nat → Nat → World → List String × World
  | 0, _, w => ([], w)
  | fuel + 1, id, w =>
    match w.advance id with
    | (Except.error _, w1) => ([], w1)
    | (Except.ok x, w1) =>
      let q := World.collectFrom fuel id w1
      (x :: q.1, q.2)

/-- A generic traversal over a `Cities` heap, as the `for` loop does
it: request a fresh producer via `__iter__`, then drain it. -/
def World.forLoop (w : World) : List String × World :=
  let p := w.asProducer
  World.collectFrom (p.2.cities.len + 1) p.1 p.2

/-- How many `__next__` calls `collectFrom` makes before (and
including) the one that raises `StopIteration`. -/
def World.stepsNeeded (w : World) (id : Nat) : Nat :=
  match w.iters.get? id with
  | none => 1
  | some ix => w.cities.len - ix + 1

/-! ### The generic traversal algorithm and its fallback

The dispatcher that chooses between the producer protocol and
positional access lives in the language runtime, not in the notebook
code; it is modelled from the spec (§4.3). To let "never calls `at`"
be stated, each traversal records the protocol calls it makes. -/

/-- One protocol call made by the generic traversal algorithm. -/
inductive TraversalCall where
  | producerRequest
  | advanceCall
  | atCall (pos : Nat)
deriving DecidableEq, Repr

/-- Drain a `CityIterator` by repeated `__next__`, recording one
`advanceCall` per call (the final, raising call included). `fuel`
bounds the recursion; `len + 1` is always enough. -/
def producerLoop : Nat → CityIterator → List String × CityIterator × List TraversalCall
  | 0, it => ([], it, [])
  | fuel + 1, it =>
    match it.next with
    | (Except.error _, it1) => ([], it1, [TraversalCall.advanceCall])
    | (Except.ok x, it1) =>
      let q := producerLoop fuel it1
      (x :: q.1, q.2.1, TraversalCall.advanceCall :: q.2.2)

/-- Index-based traversal from position `k`: call `__getitem__` at
`k, k+1, …` until the first `IndexError`, recording one `atCall` per
probe (the failing probe included); returns the collected values and
the position at which the bounds error stopped the loop. -/
def atIndexLoop (c : Cities) : Nat → Nat → List String × Nat × List TraversalCall
  | 0, k => ([], k, [])
  | fuel + 1, k =>
    match c.getitem (k : Int) with
    | Except.error _ => ([], k, [TraversalCall.atCall k])
    | Except.ok x =>
      let q := atIndexLoop c fuel (k + 1)
      (x :: q.1, q.2.1, TraversalCall.atCall k :: q.2.2)

/-- Modelled from the spec: the generic traversal algorithm of §4.3.
The dispatcher itself (the part of the language runtime behind `for`
loops) is not in the notebook source; per the spec it requests a
producer via `as_producer` whenever the object supports it
(`hasProducer`), and only otherwise falls back to positional access
from index 0. It returns the visited values and the call log. -/
def genericTraverse (hasProducer : Bool) (c : Cities) :
    List String × List TraversalCall :=
  if hasProducer then
    let q := producerLoop (c.len + 1) c.iter
    (q.1, TraversalCall.producerRequest :: q.2.2)
  else
    let q := atIndexLoop c (c.len + 1) 0
    (q.1, q.2.2)

end Part3

namespace Part1

theorem SquaresUnbounded.run_eq (k i : Nat) :
    SquaresUnbounded.run k ⟨i⟩ = (List.range' i k).map (fun j => j ^ 2) := by
  induction k generalizing i with
  | zero => simp [SquaresUnbounded.run]
  | succ k ih =>
      simp [SquaresUnbounded.run, SquaresUnbounded.next_, List.range'_succ, ih]

end Part1

namespace Part3

theorem CityIterator.next_of_le {it : CityIterator}
    (h : it._city_obj.len ≤ it._index) :
    it.next = (Except.error PyErr.StopIteration, it) := by
  simp [CityIterator.next, h]

theorem CityIterator.next_of_lt {it : CityIterator}
    (h : it._index < it._city_obj.len) :
    it.next = (Except.ok (it._city_obj._cities.get ⟨it._index, h⟩),
               ⟨it._city_obj, it._index + 1⟩) := by
  unfold CityIterator.next
  rw [dif_neg (by omega)]

theorem CityIterator.nextN_spec (k : Nat) :
    ∀ (c : Cities) (i : Nat), i + k ≤ c.len →
      CityIterator.nextN k ⟨c, i⟩ =
        (((c._cities.drop i).take k).map Except.ok, ⟨c, i + k⟩) := by
  induction k with
  | zero => intro c i _; simp [CityIterator.nextN]
  | succ k ih =>
      intro c i h
      have hlt : i < c.len := by omega
      have hdrop : c._cities.drop i
          = c._cities.get ⟨i, hlt⟩ :: c._cities.drop (i + 1) := by
        simp
      simp only [CityIterator.nextN]
      rw [CityIterator.next_of_lt hlt, ih c (i + 1) (by omega), hdrop]
      simp only [List.take_succ_cons, List.map_cons, CityIterator.mk.injEq,
        Prod.mk.injEq, List.cons.injEq, true_and, and_true]
      omega

theorem producerLoop_spec :
    ∀ (fuel : Nat) (c : Cities) (i : Nat), c.len - i < fuel →
      producerLoop fuel ⟨c, i⟩ =
        (c._cities.drop i, ⟨c, max i c.len⟩,
         List.replicate (c.len - i + 1) TraversalCall.advanceCall) := by
  intro fuel
  induction fuel with
  | zero => intro c i h; omega
  | succ fuel ih =>
      intro c i h
      by_cases hle : c.len ≤ i
      · have h1 : c._cities.drop i = [] := List.drop_eq_nil_of_le hle
        have h2 : max i c.len = i := by omega
        have h3 : c.len - i + 1 = 1 := by omega
        simp only [producerLoop]
        rw [CityIterator.next_of_le hle]
        simp [h1, h2, h3]
      · push_neg at hle
        have hnext : (CityIterator.mk c i).next
            = (Except.ok (c._cities.get ⟨i, hle⟩), CityIterator.mk c (i + 1)) :=
          CityIterator.next_of_lt hle
        simp only [producerLoop, hnext]
        rw [ih c (i + 1) (by omega)]
        have hdrop : c._cities.drop i
            = c._cities.get ⟨i, hle⟩ :: c._cities.drop (i + 1) := by
          simp
        have hmax : max (i + 1) c.len = max i c.len := by omega
        have hrep : c.len - i + 1 = (c.len - (i + 1) + 1) + 1 := by omega
        rw [hdrop, hmax, hrep]
        simp [List.replicate_succ]

theorem Cities.getitem_natCast (c : Cities) (k : Nat) :
    c.getitem (k : Int)
      = if h : k < c.len then
          Except.ok (c._cities.get ⟨k, h⟩)
        else
          Except.error PyErr.IndexError := by
  have hneg : ¬((k : Int) < 0) := by omega
  have hif : (if (k : Int) < 0 then ((c._cities.length : Int) + k) else (k : Int))
      = (k : Int) := if_neg hneg
  simp only [Cities.getitem, Cities.len, hif]
  by_cases hk : k < c._cities.length
  · rw [dif_pos ⟨by omega, by exact_mod_cast hk⟩, dif_pos hk]
    simp
  · rw [dif_neg (by omega), dif_neg hk]

theorem atIndexLoop_spec :
    ∀ (fuel : Nat) (c : Cities) (k : Nat), c.len - k < fuel →
      atIndexLoop c fuel k =
        (c._cities.drop k, max k c.len,
         (List.range' k (c.len - k + 1)).map TraversalCall.atCall) := by
  intro fuel
  induction fuel with
  | zero => intro c k h; omega
  | succ fuel ih =>
      intro c k h
      by_cases hle : c.len ≤ k
      · have h1 : c._cities.drop k = [] := List.drop_eq_nil_of_le hle
        have h2 : max k c.len = k := by omega
        have h3 : c.len - k + 1 = 1 := by omega
        have hget : c.getitem (k : Int) = Except.error PyErr.IndexError := by
          rw [Cities.getitem_natCast, dif_neg (Nat.not_lt.mpr hle)]
        simp only [atIndexLoop, hget]
        simp [h1, h2, h3, List.range'_one]
      · push_neg at hle
        have hget : c.getitem (k : Int) = Except.ok (c._cities.get ⟨k, hle⟩) := by
          rw [Cities.getitem_natCast, dif_pos hle]
        simp only [atIndexLoop, hget]
        rw [ih c (k + 1) (by omega)]
        have hdrop : c._cities.drop k
            = c._cities.get ⟨k, hle⟩ :: c._cities.drop (k + 1) := by
          simp
        have hmax : max (k + 1) c.len = max k c.len := by omega
        have hrng : c.len - k + 1 = (c.len - (k + 1) + 1) + 1 := by omega
        rw [hdrop, hmax, hrng]
        simp [List.range'_succ]

theorem World.advance_cities (w : World) (id : Nat) :
    ((w.advance id).2).cities = w.cities := by
  unfold World.advance
  rcases h : w.iters.get? id with _ | ix
  · rfl
  · dsimp only
    split
    · rfl
    · rfl

theorem World.advance_get?_ne (w : World) (id j : Nat) (hne : j ≠ id) :
    ((w.advance id).2).iters.get? j = w.iters.get? j := by
  unfold World.advance
  rcases h : w.iters.get? id with _ | ix
  · rfl
  · dsimp only
    split
    · rfl
    · exact List.get?_set_ne _ _ (fun he => hne he.symm)

theorem World.advanceN_cities (k id : Nat) (w : World) :
    (World.advanceN k id w).cities = w.cities := by
  induction k generalizing w with
  | zero => rfl
  | succ k ih =>
      simp only [World.advanceN]
      rw [ih, World.advance_cities]

theorem World.advanceN_get?_ne (k id j : Nat) (hne : j ≠ id) (w : World) :
    (World.advanceN k id w).iters.get? j = w.iters.get? j := by
  induction k generalizing w with
  | zero => rfl
  | succ k ih =>
      simp only [World.advanceN]
      rw [ih, World.advance_get?_ne w id j hne]

theorem World.advance_fst_congr (w1 w2 : World) (id : Nat)
    (hc : w1.cities = w2.cities) (hi : w1.iters.get? id = w2.iters.get? id) :
    (w1.advance id).1 = (w2.advance id).1 := by
  rcases w1 with ⟨c1, l1⟩
  rcases w2 with ⟨c2, l2⟩
  dsimp only at hc hi
  subst hc
  unfold World.advance
  dsimp only
  rw [hi]
  rcases h : l2.get? id with _ | ix
  · rfl
  · dsimp only
    split
    · rfl
    · rfl

theorem World.advance_ok {w : World} {id : Nat} {x : String} {w1 : World}
    (h : w.advance id = (Except.ok x, w1)) :
    ∃ ix, w.iters.get? id = some ix ∧ ix < w.cities.len ∧
      w1 = ⟨w.cities, w.iters.set id (ix + 1)⟩ := by
  unfold World.advance at h
  rcases hh : w.iters.get? id with _ | ix <;> rw [hh] at h
  · simp at h
  · dsimp only at h
    split at h
    · simp at h
    · refine ⟨ix, rfl, by omega, ?_⟩
      exact congrArg Prod.snd h.symm

theorem World.one_le_stepsNeeded (w : World) (id : Nat) :
    1 ≤ w.stepsNeeded id := by
  unfold World.stepsNeeded
  split <;> omega

theorem World.stepsNeeded_le (w : World) (id : Nat) :
    w.stepsNeeded id ≤ w.cities.len + 1 := by
  unfold World.stepsNeeded
  split <;> omega

theorem World.collectFrom_succ_of_le :
    ∀ (fuel : Nat) (w : World) (id : Nat), w.stepsNeeded id ≤ fuel →
      World.collectFrom (fuel + 1) id w = World.collectFrom fuel id w := by
  intro fuel
  induction fuel with
  | zero =>
      intro w id h
      have := World.one_le_stepsNeeded w id
      omega
  | succ fuel ih =>
      intro w id h
      rcases hadv : w.advance id with ⟨r, w1⟩
      rcases r with e | x
      · show (match w.advance id with
          | (Except.error _, w1) => (([] : List String), w1)
          | (Except.ok x, w1) =>
            let q := World.collectFrom (fuel + 1) id w1
            (x :: q.1, q.2)) = _
        rw [hadv]
        show ([], w1) = (match w.advance id with
          | (Except.error _, w1) => (([] : List String), w1)
          | (Except.ok x, w1) =>
            let q := World.collectFrom fuel id w1
            (x :: q.1, q.2))
        rw [hadv]
      · obtain ⟨ix, hget, hlt, hw1⟩ := World.advance_ok hadv
        have hid : id < w.iters.length := by
          rcases List.get?_eq_some.mp hget with ⟨hlen, _⟩
          exact hlen
        have hsteps : w1.stepsNeeded id ≤ fuel := by
          have hget1 : w1.iters.get? id = some (ix + 1) := by
            rw [hw1]
            exact List.get?_set_eq_of_lt _ hid
          have hc1 : w1.cities = w.cities := by rw [hw1]
          have hs : w.stepsNeeded id = w.cities.len - ix + 1 := by
            simp only [World.stepsNeeded, hget]
          have hs1 : w1.stepsNeeded id = w1.cities.len - (ix + 1) + 1 := by
            simp only [World.stepsNeeded, hget1]
          rw [hs] at h
          rw [hs1, hc1]
          omega
        show (match w.advance id with
          | (Except.error _, w1) => (([] : List String), w1)
          | (Except.ok x, w1) =>
            let q := World.collectFrom (fuel + 1) id w1
            (x :: q.1, q.2)) = _
        rw [hadv]
        show (x :: (World.collectFrom (fuel + 1) id w1).1,
              (World.collectFrom (fuel + 1) id w1).2)
            = (match w.advance id with
          | (Except.error _, w1) => (([] : List String), w1)
          | (Except.ok x, w1) =>
            let q := World.collectFrom fuel id w1
            (x :: q.1, q.2))
        rw [hadv, ih w1 id hsteps]

theorem World.collectFrom_fuel_irrel (f1 f2 id : Nat) (w : World)
    (h1 : w.cities.len + 1 ≤ f1) (h2 : w.cities.len + 1 ≤ f2) :
    World.collectFrom f1 id w = World.collectFrom f2 id w := by
  have hs := World.stepsNeeded_le w id
  have key : ∀ f, w.stepsNeeded id ≤ f →
      World.collectFrom f id w = World.collectFrom (w.stepsNeeded id) id w := by
    intro f hf
    induction f, hf using Nat.le_induction with
    | base => rfl
    | succ f hf ihf => rw [World.collectFrom_succ_of_le f w id hf, ihf]
  rw [key f1 (by omega), key f2 (by omega)]

theorem CityIterator.nextN_exhausted (k : Nat) (it : CityIterator)
    (h : it._city_obj.len ≤ it._index) :
    CityIterator.nextN k it
      = (List.replicate k (Except.error PyErr.StopIteration), it) := by
  induction k with
  | zero => simp [CityIterator.nextN]
  | succ k ih =>
      simp only [CityIterator.nextN]
      rw [CityIterator.next_of_le h, ih, List.replicate_succ]

end Part3

namespace Part1

theorem Squares.next_raises_of_le {sq : Squares} (h : sq.length ≤ sq.i) :
    sq.next = (Except.error PyErr.StopIteration, sq) := by
  simp [Squares.next, h]

end Part1

/-! ## The claimed properties -/

/-- Claim C1: for every Container with `length() = n` (including `n = 0`),
a fresh producer from `as_producer()` yields the container's `n` elements
in traversal order over the first `n` `advance()` calls, the `(n+1)`th
`advance()` raises `StopIteration`, and for an empty container the very
first `advance()` raises while `length()` returns 0. -/
theorem claim_C1_full_traversal (c : Part3.Cities) :
    (Part3.CityIterator.nextN c.len c.iter).1 = c._cities.map Except.ok ∧
    ((Part3.CityIterator.nextN c.len c.iter).2.next).1
      = Except.error PyErr.StopIteration ∧
    (c._cities = [] →
      c.iter.next = (Except.error PyErr.StopIteration, c.iter) ∧ c.len = 0) := by
  have hspec := Part3.CityIterator.nextN_spec c.len c 0 (by omega)
  have hiter : c.iter = ⟨c, 0⟩ := rfl
  refine ⟨?_, ?_, ?_⟩
  · rw [hiter, hspec]
    simp [Part3.Cities.len]
  · rw [hiter, hspec]
    have : (⟨c, 0 + c.len⟩ : Part3.CityIterator).next
        = (Except.error PyErr.StopIteration, ⟨c, 0 + c.len⟩) :=
      Part3.CityIterator.next_of_le (by simp)
    rw [this]
  · intro hnil
    have hlen : c.len = 0 := by simp [Part3.Cities.len, hnil]
    refine ⟨?_, hlen⟩
    rw [hiter]
    exact Part3.CityIterator.next_of_le hlen.le

/-- Witness for C1 at the empty container: the first `advance()` raises
`StopIteration` and `length()` is 0. -/
theorem claim_C1_full_traversal_witness :
    (Part3.Cities.mk []).iter.next
      = (Except.error PyErr.StopIteration, (Part3.Cities.mk []).iter) ∧
    (Part3.Cities.mk []).len = 0 := by
  obtain ⟨_, _, h3⟩ := claim_C1_full_traversal ⟨[]⟩
  exact h3 rfl

/-- Claim C2: once `advance()` has raised `StopIteration`, every
subsequent `advance()` on that same producer raises `StopIteration`
again — the state is unchanged by the raise, no other error occurs, and
production never restarts. Stated for both `CityIterator` (part-3) and
the bounded `Squares` (part-1). -/
theorem claim_C2_exhaustion_idempotent (it : Part3.CityIterator)
    (sq : Part1.Squares) (k : Nat) :
    ((it.next).1 = Except.error PyErr.StopIteration →
      (it.next).2 = it ∧
      (Part3.CityIterator.nextN k (it.next).2).1
        = List.replicate k (Except.error PyErr.StopIteration)) ∧
    ((sq.next).1 = Except.error PyErr.StopIteration →
      (sq.next).2 = sq ∧
      ((sq.next).2.next).1 = Except.error PyErr.StopIteration) := by
  constructor
  · intro herr
    have hle : it._city_obj.len ≤ it._index := by
      by_contra hlt
      rw [Part3.CityIterator.next_of_lt (by omega)] at herr
      simp at herr
    have hnext := Part3.CityIterator.next_of_le hle
    rw [hnext]
    exact ⟨rfl, by rw [Part3.CityIterator.nextN_exhausted k it hle]⟩
  · intro herr
    have hle : sq.length ≤ sq.i := by
      by_contra hlt
      simp [Part1.Squares.next, ge_iff_le, hlt] at herr
    have hnext := Part1.Squares.next_raises_of_le hle
    rw [hnext]
    exact ⟨rfl, by rw [Part1.Squares.next_raises_of_le hle]⟩

/-- Witness for C2: a `CityIterator` with cursor 4 over the 4-element
part-3 container and a `Squares(2)` with cursor 2 are exhausted, stay
unchanged, and keep raising `StopIteration`. -/
theorem claim_C2_exhaustion_idempotent_witness :
    ((Part3.CityIterator.mk Part3.Cities.init 4).next).2
        = Part3.CityIterator.mk Part3.Cities.init 4 ∧
    (Part3.CityIterator.nextN 2
        ((Part3.CityIterator.mk Part3.Cities.init 4).next).2).1
      = List.replicate 2 (Except.error PyErr.StopIteration) ∧
    ((Part1.Squares.mk 2 2).next).2 = Part1.Squares.mk 2 2 ∧
    (((Part1.Squares.mk 2 2).next).2.next).1
      = Except.error PyErr.StopIteration := by
  obtain ⟨h1, h2⟩ :=
    claim_C2_exhaustion_idempotent ⟨Part3.Cities.init, 4⟩ ⟨2, 2⟩ 2
  obtain ⟨h1a, h1b⟩ := h1 (by rfl)
  obtain ⟨h2a, h2b⟩ := h2 (by rfl)
  exact ⟨h1a, h1b, h2a, h2b⟩

/-- Claim C3: for every producer in any state, `as_producer()`
(`__iter__`) returns the identical instance — same object, same cursor —
for both `CityIterator` and the bounded `Squares`. -/
theorem claim_C3_producer_self_identity (it : Part3.CityIterator)
    (sq : Part1.Squares) :
    it.iter = it ∧ it.iter._index = it._index ∧ sq.iter = sq ∧
    sq.iter.i = sq.i :=
  ⟨rfl, rfl, rfl, rfl⟩

/-- Claim C4: on any heap, each `as_producer()` call allocates a
brand-new producer with cursor 0, and two producers obtained from the
same container advance independently: any number `k` of `advance()`
calls on the first does not change the second's cursor, nor the value
the second's next `advance()` returns. -/
theorem claim_C4_independent_producers (w : Part3.World) (k : Nat) :
    (w.asProducer.2.iters.get? w.asProducer.1 = some 0) ∧
    (w.asProducer.2.asProducer.2.iters.get? w.asProducer.2.asProducer.1
      = some 0) ∧
    ((Part3.World.advanceN k w.asProducer.1
        w.asProducer.2.asProducer.2).iters.get? w.asProducer.2.asProducer.1
      = w.asProducer.2.asProducer.2.iters.get? w.asProducer.2.asProducer.1) ∧
    (((Part3.World.advanceN k w.asProducer.1
        w.asProducer.2.asProducer.2).advance w.asProducer.2.asProducer.1).1
      = (w.asProducer.2.asProducer.2.advance w.asProducer.2.asProducer.1).1) := by
  have hp1 : w.asProducer.1 = w.iters.length := rfl
  have hp2 : w.asProducer.2.asProducer.1 = w.iters.length + 1 := by
    simp [Part3.World.asProducer]
  have hne : w.asProducer.2.asProducer.1 ≠ w.asProducer.1 := by
    rw [hp1, hp2]
    omega
  have hframe := Part3.World.advanceN_get?_ne k w.asProducer.1
    w.asProducer.2.asProducer.1 hne w.asProducer.2.asProducer.2
  refine ⟨?_, ?_, hframe, ?_⟩
  · show (w.iters ++ [0]).get? w.iters.length = some 0
    exact List.get?_concat_length w.iters 0
  · show ((w.iters ++ [0]) ++ [0]).get? (w.iters ++ [0]).length = some 0
    exact List.get?_concat_length (w.iters ++ [0]) 0
  · exact Part3.World.advance_fst_congr _ _ _
      (Part3.World.advanceN_cities k w.asProducer.1 w.asProducer.2.asProducer.2)
      hframe

/-- Claim C5: for a container wrapping `["Paris","Berlin","Rome"]`, a
first generic traversal yields the three cities in order; a second
traversal with a fresh producer yields them again; draining the
already-exhausted first producer directly yields nothing. -/
theorem claim_C5_concrete_scenario :
    (Part3.World.forLoop ⟨⟨["Paris", "Berlin", "Rome"]⟩, []⟩).1
      = ["Paris", "Berlin", "Rome"] ∧
    (Part3.World.forLoop
        (Part3.World.forLoop ⟨⟨["Paris", "Berlin", "Rome"]⟩, []⟩).2).1
      = ["Paris", "Berlin", "Rome"] ∧
    (Part3.World.collectFrom 4 0
        (Part3.World.forLoop
          (Part3.World.forLoop ⟨⟨["Paris", "Berlin", "Rome"]⟩, []⟩).2).2).1
      = [] := by
  decide

/-- Claim C6 counterexample: the positional accessor does not signal
`IndexError` for every negative position — `cities[-1]` on the part-3
container returns the last element `"Newcastle"` instead. -/
theorem claim_C6_counterexample :
    (-1 : Int) < 0 ∧
    Part3.Cities.init.getitem (-1) = Except.ok "Newcastle" :=
  ⟨by decide, rfl⟩

/-- Python `Cities.__getitem__` at a nonnegative index: returns the element at
that position, or raises `IndexError` at or past the length. -/
theorem Part3.Cities.getitem_nonneg (c : Part3.Cities) (s : Int) (hs : 0 ≤ s) :
    c.getitem s
      = if h : s < (c._cities.length : Int) then
          Except.ok (c._cities.get ⟨s.toNat, by omega⟩)
        else
          Except.error PyErr.IndexError := by
  have hneg : ¬(s < 0) := by omega
  have hif : (if s < 0 then ((c._cities.length : Int) + s) else s) = s :=
    if_neg hneg
  simp only [Part3.Cities.getitem, hif]
  by_cases h : s < (c._cities.length : Int)
  · rw [dif_pos ⟨hs, h⟩, dif_pos h]
  · rw [dif_neg (fun hc => h hc.2), dif_neg h]

/-- Python `Cities.__getitem__` at a negative index: counts from the end
(position `length + s`), raising `IndexError` below `-length`. -/
theorem Part3.Cities.getitem_negIdx (c : Part3.Cities) (s : Int) (hs : s < 0) :
    c.getitem s
      = if h : 0 ≤ (c._cities.length : Int) + s then
          Except.ok (c._cities.get ⟨((c._cities.length : Int) + s).toNat, by omega⟩)
        else
          Except.error PyErr.IndexError := by
  have hif : (if s < 0 then ((c._cities.length : Int) + s) else s)
      = (c._cities.length : Int) + s := if_pos hs
  simp only [Part3.Cities.getitem, hif]
  by_cases h : 0 ≤ (c._cities.length : Int) + s
  · rw [dif_pos ⟨h, by omega⟩, dif_pos h]
  · rw [dif_neg (fun hc => h hc.1), dif_neg h]

/-- Claim C6 as amended: `at(position)` signals `IndexError` exactly
when `position ≥ length()` or `position < -length()`; a position in
`[0, length)` returns the element there, a position in `[-length, 0)`
returns the element at `position + length` (negative positions count
from the end); and `IndexError` is distinct from `StopIteration`. -/
theorem claim_C6_amended_positional_access (c : Part3.Cities) (s : Int) :
    (c.getitem s = Except.error PyErr.IndexError ↔
      (c.len : Int) ≤ s ∨ s < -(c.len : Int)) ∧
    (0 ≤ s → s < (c.len : Int) →
      c.getitem s = Except.ok (c._cities.getD s.toNat "")) ∧
    (-(c.len : Int) ≤ s → s < 0 →
      c.getitem s = Except.ok (c._cities.getD ((c.len : Int) + s).toNat "")) ∧
    PyErr.IndexError ≠ PyErr.StopIteration := by
  have hl : (c.len : Int) = (c._cities.length : Int) := rfl
  refine ⟨?_, ?_, ?_, by decide⟩
  · by_cases hs : s < 0
    · rw [Part3.Cities.getitem_negIdx c s hs]
      by_cases h : 0 ≤ (c._cities.length : Int) + s
      · rw [dif_pos h]
        constructor
        · intro hbad
          exact absurd hbad (by simp)
        · intro hor
          rcases hor with h1 | h1 <;> omega
      · rw [dif_neg h]
        exact ⟨fun _ => Or.inr (by omega), fun _ => rfl⟩
    · rw [Part3.Cities.getitem_nonneg c s (by omega)]
      by_cases h : s < (c._cities.length : Int)
      · rw [dif_pos h]
        constructor
        · intro hbad
          exact absurd hbad (by simp)
        · intro hor
          rcases hor with h1 | h1 <;> omega
      · rw [dif_neg h]
        exact ⟨fun _ => Or.inl (by omega), fun _ => rfl⟩
  · intro h0 h1
    rw [Part3.Cities.getitem_nonneg c s h0, dif_pos (by omega)]
    have hb : s.toNat < c._cities.length := by omega
    rw [List.getD_eq_getElem _ _ hb]
    simp
  · intro h0 h1
    rw [Part3.Cities.getitem_negIdx c s h1, dif_pos (by omega)]
    have hb : ((c._cities.length : Int) + s).toNat < c._cities.length := by
      omega
    have hcast : ((c.len : Int) + s).toNat = ((c._cities.length : Int) + s).toNat := by
      rw [hl]
    rw [hcast, List.getD_eq_getElem _ _ hb]
    simp

/-- Witness for C6 (amended): on the part-3 container, `at(1)` returns
`"Newark"`, `at(-1)` returns `"Newcastle"`, and `at(7)` signals
`IndexError`. -/
theorem claim_C6_amended_witness :
    Part3.Cities.init.getitem 1 = Except.ok "Newark" ∧
    Part3.Cities.init.getitem (-1) = Except.ok "Newcastle" ∧
    Part3.Cities.init.getitem 7 = Except.error PyErr.IndexError := by
  refine ⟨?_, ?_, ?_⟩
  · have h := (claim_C6_amended_positional_access Part3.Cities.init 1).2.1
      (by decide) (by decide)
    exact h.trans (by rfl)
  · have h := (claim_C6_amended_positional_access Part3.Cities.init (-1)).2.2.1
      (by decide) (by decide)
    exact h.trans (by rfl)
  · exact (claim_C6_amended_positional_access Part3.Cities.init 7).1.mpr
      (by decide)

/-- Claim C7: on an object supporting both the producer protocol and
positional access, the generic traversal requests a producer, visits
the elements through it, and never makes an `at` call; the positional
fallback, used only when no producer is available, probes
`at(0) … at(n-1)` in order (yielding the elements) and terminates
exactly at the failing probe `at(n)`. -/
theorem claim_C7_traversal_preference (c : Part3.Cities) :
    ((Part3.genericTraverse true c).1 = c._cities ∧
     (Part3.genericTraverse true c).2.head?
       = some Part3.TraversalCall.producerRequest ∧
     (∀ pos, Part3.TraversalCall.atCall pos ∉ (Part3.genericTraverse true c).2)) ∧
    ((Part3.genericTraverse false c).1 = c._cities ∧
     (Part3.genericTraverse false c).2
       = (List.range (c.len + 1)).map Part3.TraversalCall.atCall) := by
  have hprod := Part3.producerLoop_spec (c.len + 1) c 0 (by omega)
  have hat := Part3.atIndexLoop_spec (c.len + 1) c 0 (by omega)
  have hiter : c.iter = ⟨c, 0⟩ := rfl
  constructor
  · simp only [Part3.genericTraverse, if_pos, hiter, hprod]
    refine ⟨by simp, by simp, ?_⟩
    intro pos hmem
    simp only [List.mem_cons] at hmem
    rcases hmem with hmem | hmem
    · exact Part3.TraversalCall.noConfusion hmem
    · have := List.eq_of_mem_replicate hmem
      exact Part3.TraversalCall.noConfusion this
  · simp only [Part3.genericTraverse, if_neg, Bool.false_eq_true,
      not_false_iff, hat]
    refine ⟨by simp, ?_⟩
    simp [List.range_eq_range']

/-- Witness for C7 on the part-3 container: the fallback visits all
four cities, and the producer-based traversal makes no `at` call. -/
theorem claim_C7_traversal_preference_witness :
    (Part3.genericTraverse false Part3.Cities.init).1
      = ["New York", "Newark", "New Delhi", "Newcastle"] ∧
    Part3.TraversalCall.atCall 2 ∉
      (Part3.genericTraverse true Part3.Cities.init).2 := by
  obtain ⟨⟨_, _, hno⟩, hvals, _⟩ :=
    claim_C7_traversal_preference Part3.Cities.init
  exact ⟨hvals, hno 2⟩

/-- Claim C8: `advance()` has no side effect beyond its own cursor: it
leaves the container (hence its length and backing sequence) unchanged
and every other producer's cursor unchanged; in the direct model the
iterator's container reference is also untouched. -/
theorem claim_C8_advance_frame (w : Part3.World) (id : Nat)
    (it : Part3.CityIterator) :
    ((w.advance id).2).cities = w.cities ∧
    ((w.advance id).2).cities.len = w.cities.len ∧
    (∀ j, j ≠ id → ((w.advance id).2).iters.get? j = w.iters.get? j) ∧
    ((it.next).2)._city_obj = it._city_obj := by
  refine ⟨Part3.World.advance_cities w id,
    by rw [Part3.World.advance_cities], ?_, ?_⟩
  · intro j hj
    exact Part3.World.advance_get?_ne w id j hj
  · unfold Part3.CityIterator.next
    split
    · rfl
    · rfl

/-- Witness for C8 on a concrete heap with two producers: advancing the
producer at address 0 keeps the container intact and leaves the cursor
of the producer at address 1 equal to 2. -/
theorem claim_C8_advance_frame_witness :
    ((Part3.World.advance ⟨Part3.Cities.init, [0, 2]⟩ 0).2).cities
      = Part3.Cities.init ∧
    ((Part3.World.advance ⟨Part3.Cities.init, [0, 2]⟩ 0).2).iters.get? 1
      = some 2 := by
  obtain ⟨h1, _, h3, _⟩ :=
    claim_C8_advance_frame ⟨Part3.Cities.init, [0, 2]⟩ 0
      ⟨Part3.Cities.init, 0⟩
  refine ⟨h1, ?_⟩
  rw [h3 1 (by decide)]
  rfl

/-- Claim C9: a producer's cursor never decreases under any of its
operations: a successful `advance()` increments it by exactly one, an
exhausted `advance()` raises and leaves the producer unchanged (so once
the cursor reaches the length the producer is permanently exhausted),
and `as_producer()` does not touch it. Stated for both `CityIterator`
and the bounded `Squares`. -/
theorem claim_C9_cursor_monotone (it : Part3.CityIterator)
    (sq : Part1.Squares) :
    it._index ≤ ((it.next).2)._index ∧
    (∀ x it', it.next = (Except.ok x, it') → it'._index = it._index + 1) ∧
    it.iter = it ∧
    (it._city_obj.len ≤ it._index →
      it.next = (Except.error PyErr.StopIteration, it)) ∧
    sq.i ≤ ((sq.next).2).i ∧
    sq.iter = sq ∧
    (sq.length ≤ sq.i → sq.next = (Except.error PyErr.StopIteration, sq)) := by
  refine ⟨?_, ?_, rfl, ?_, ?_, rfl, ?_⟩
  · unfold Part3.CityIterator.next
    split
    · exact Nat.le_refl _
    · exact Nat.le_succ _
  · intro x it' h
    by_cases hle : it._city_obj.len ≤ it._index
    · rw [Part3.CityIterator.next_of_le hle] at h
      simp at h
    · rw [Part3.CityIterator.next_of_lt (by omega)] at h
      injection h with h1 h2
      rw [← h2]
  · exact fun h => Part3.CityIterator.next_of_le h
  · unfold Part1.Squares.next
    split
    · exact Nat.le_refl _
    · exact Nat.le_succ _
  · exact fun h => Part1.Squares.next_raises_of_le h

/-- Witness for C9: a fresh iterator over the part-3 container advances
its cursor from 1 to 2 on success, and both an exhausted
`CityIterator` (cursor 4 of 4) and an exhausted `Squares(2)` (cursor 2)
raise `StopIteration` unchanged. -/
theorem claim_C9_cursor_monotone_witness :
    (Part3.CityIterator.mk Part3.Cities.init 2)._index = 1 + 1 ∧
    Part3.CityIterator.next ⟨Part3.Cities.init, 4⟩
      = (Except.error PyErr.StopIteration, ⟨Part3.Cities.init, 4⟩) ∧
    Part1.Squares.next ⟨2, 2⟩
      = (Except.error PyErr.StopIteration, ⟨2, 2⟩) := by
  obtain ⟨_, hsucc, _, _, _, _, _⟩ :=
    claim_C9_cursor_monotone ⟨Part3.Cities.init, 1⟩ ⟨2, 2⟩
  obtain ⟨_, _, _, hexh, _, _, _⟩ :=
    claim_C9_cursor_monotone ⟨Part3.Cities.init, 4⟩ ⟨2, 2⟩
  obtain ⟨_, _, _, _, _, _, hsq⟩ :=
    claim_C9_cursor_monotone ⟨Part3.Cities.init, 1⟩ ⟨2, 2⟩
  refine ⟨?_, hexh (by decide), hsq (by decide)⟩
  exact hsucc "Newark" ⟨Part3.Cities.init, 2⟩ (by rfl)

/-- Claim C10: the unbounded `Squares` producer never signals
exhaustion: `k` calls to `next_` on a fresh instance all succeed,
returning the squares `0², 1², …, (k-1)²` in increasing order. -/
theorem claim_C10_unbounded_squares (k : Nat) :
    Part1.SquaresUnbounded.run k Part1.SquaresUnbounded.init
      = (List.range k).map (fun j => j ^ 2) ∧
    (Part1.SquaresUnbounded.run k Part1.SquaresUnbounded.init).length = k := by
  have h := Part1.SquaresUnbounded.run_eq k 0
  have hinit : Part1.SquaresUnbounded.init = ⟨0⟩ := rfl
  rw [hinit, h, List.range_eq_range']
  exact ⟨rfl, by simp⟩
